import Mathlib

/-!
Verification of the `batch-rs` core against its specification.

The embedding covers `src/job.rs` (the `Priority`, `Status`, `Failure`
value types and the `Job` trait's metadata record) and, modelled from the
spec where the corresponding modules are not in the repository snapshot,
the topology declaration validator of `batch-rabbitmq-codegen`.
-/

namespace Batch

/-- The `Priority` enum of `src/job.rs` (lines 80-92), constructors in the
source's declaration order: `Trivial, Low, Normal, High, Critical`. -/
inductive Priority
  | Trivial
  | Low
  | Normal
  | High
  | Critical
deriving DecidableEq, Fintype, Repr

/-- The discriminant Rust assigns each `Priority` variant: fieldless enum
variants get 0, 1, 2, ... in declaration order, and the derived
`PartialOrd`/`Ord` impls compare these discriminants. -/
def Priority.rank : Priority → Nat
  | .Trivial => 0
  | .Low => 1
  | .Normal => 2
  | .High => 3
  | .Critical => 4

/-- The strict order on `Priority` given by `derive(PartialOrd, Ord)` in
`src/job.rs` line 80: discriminant comparison. -/
def Priority.lt (p q : Priority) : Bool :=
  p.rank < q.rank

/-- The declaration order of the variants as they appear in the source,
used to state that the derived order agrees with declaration order. -/
def declOrder : List Priority :=
  [.Trivial, .Low, .Normal, .High, .Critical]

/-- `impl Default for Priority` (`src/job.rs` lines 94-98): returns
`Priority::Normal`. -/
def Priority.default : Priority := Priority.Normal

/-- Modelled from the spec: the `error` module is not in the repository
snapshot; the spec's error taxonomy names `InvalidPriority` as the failure
of parsing priority text. Only that kind is exercised here. -/
inductive ErrorKind
  | InvalidPriority
deriving DecidableEq, Repr

/-- `impl FromStr for Priority` (`src/job.rs` lines 100-113): a `match` on
the string, i.e. sequential exact comparison against the five lowercase
names, any other input producing `ErrorKind::InvalidPriority`. -/
def Priority.from_str (s : String) : Except ErrorKind Priority :=
  if s = "trivial" then .ok .Trivial
  else if s = "low" then .ok .Low
  else if s = "normal" then .ok .Normal
  else if s = "high" then .ok .High
  else if s = "critical" then .ok .Critical
  else .error .InvalidPriority

/-- The five strings `Priority::from_str` accepts, in declaration order. -/
def priorityStrings : List String :=
  ["trivial", "low", "normal", "high", "critical"]

/-- `Priority::to_u8` (`src/job.rs` lines 115-126). The source returns
`u8`; every arm is a literal below 256, so `Nat` represents it exactly. -/
def Priority.to_u8 : Priority → Nat
  | .Trivial => 0
  | .Low => 1
  | .Normal => 2
  | .High => 3
  | .Critical => 4

/-- The `Failure` enum of `src/job.rs` (lines 142-150). -/
inductive Failure
  | Error
  | Timeout
  | Crash
deriving DecidableEq, Fintype, Repr

/-- The `Status` enum of `src/job.rs` (lines 129-139): `Failed` carries a
`Failure` reason. -/
inductive Status
  | Pending
  | Started
  | Success
  | Failed (f : Failure)
deriving DecidableEq, Repr

/-- The metadata record behind an implementation of the `Job` trait
(`src/job.rs` lines 57-75): its six methods take no receiver and return
the values recorded here. `retries` is a `u32` in the source; `timeout`
an optional `Duration`, modelled as an optional number of time units. -/
structure JobClass where
  name : String
  exchange : String
  routing_key : String
  retries : Nat
  timeout : Option Nat
  priority : Priority
deriving DecidableEq, Repr

/-- One of the six metadata queries of the `Job` trait. -/
inductive JobQuery
  | name
  | exchange
  | routing_key
  | retries
  | timeout
  | priority
deriving DecidableEq, Fintype, Repr

/-- The value a metadata query returns, tagged by its type. -/
inductive JobAnswer
  | str (s : String)
  | num (n : Nat)
  | dur (d : Option Nat)
  | prio (p : Priority)
deriving DecidableEq, Repr

/-- Modelled from the spec: the generated `Job` impls are not in the
repository snapshot. The trait's methods are nullary (no `self`) and the
spec calls each "a pure, compile-time-constant-like query (no side
effects, no dependence on instance state)", so an invocation at any point
of the program (invocation index `t`) returns the constant recorded in
the job type's descriptor. -/
def invokeQuery (J : JobClass) (q : JobQuery) (_t : Nat) : JobAnswer :=
  match q with
  | .name => .str J.name
  | .exchange => .str J.exchange
  | .routing_key => .str J.routing_key
  | .retries => .num J.retries
  | .timeout => .dur J.timeout
  | .priority => .prio J.priority

/-- Modelled from the spec: the derive layer fills the defaults `retries
= 0`, `timeout = none`, `priority = Normal` when the author leaves an
attribute unspecified (`none`). -/
def mkJobClass (name exchange routing_key : String)
    (retries : Option Nat) (timeout : Option Nat)
    (priority : Option Priority) : JobClass :=
  { name := name
    exchange := exchange
    routing_key := routing_key
    retries := retries.getD 0
    timeout := timeout
    priority := priority.getD Priority.default }

/-- Exchange kinds of the topology data model (spec section 3). -/
inductive ExchangeKind
  | direct
  | topic
  | fanout
  | headers
deriving DecidableEq, Fintype, Repr

/-- Modelled from the spec: a parsed declaration entry as produced by the
declaration parser — a name and a list of key/value attributes. The
parser modules `exchanges.rs`/`queues.rs` are not in the repository
snapshot. -/
structure Entry where
  name : String
  attrs : List (String × String)
deriving DecidableEq, Repr

/-- Modelled from the spec: the validation diagnostics taxonomy of spec
sections 4.2 and 7 — duplicate name, missing required attribute, unknown
attribute, unresolved cross-reference, conditional `routing_key`
violation, and a badly typed attribute value. -/
inductive Diag
  | duplicateName (entry : String)
  | missingAttr (entry attr : String)
  | unknownAttr (entry attr : String)
  | unknownExchange (entry exchange : String)
  | routingKeyRequired (entry : String)
  | routingKeyForbidden (entry : String)
  | badAttrValue (entry attr : String)
deriving DecidableEq, Repr

/-- First value bound to key `k` among an entry's attributes. -/
def Entry.lookup (e : Entry) (k : String) : Option String :=
  (e.attrs.find? (fun a => a.1 = k)).map (fun a => a.2)

/-- Attribute keys an exchange declaration may carry (spec section 3):
`kind` and `durable`; `kind` is required. -/
def exchangeKeys : List String := ["kind", "durable"]

/-- Attribute keys a queue declaration may carry (spec section 3):
`bound_exchange`, `routing_key` and `durable`. -/
def queueKeys : List String := ["bound_exchange", "routing_key", "durable"]

/-- Text form of an exchange kind, as written in a declaration. -/
def parseKind (s : String) : Option ExchangeKind :=
  if s = "direct" then some .direct
  else if s = "topic" then some .topic
  else if s = "fanout" then some .fanout
  else if s = "headers" then some .headers
  else none

/-- Whether an exchange kind demands a `routing_key` on queues bound to
it (spec section 4.2: required for direct/topic, a diagnostic
otherwise). -/
def kindNeedsRoutingKey : ExchangeKind → Bool
  | .direct => true
  | .topic => true
  | .fanout => false
  | .headers => false

/-- Modelled from the spec: one `duplicateName` diagnostic per name
declared more than once within a declaration kind. -/
def duplicateDiags (entries : List Entry) : List Diag :=
  ((entries.map Entry.name).dedup.filter
    (fun n => 1 < (entries.map Entry.name).count n)).map Diag.duplicateName

/-- Modelled from the spec: the per-entry rules for one exchange
declaration — the required `kind` attribute must be present with a
recognized value, and no unknown attribute keys are accepted. -/
def exchangeEntryDiags (e : Entry) : List Diag :=
  (match e.lookup "kind" with
    | none => [Diag.missingAttr e.name "kind"]
    | some v =>
        if (parseKind v).isNone then [Diag.badAttrValue e.name "kind"] else [])
  ++ ((e.attrs.filter (fun a => a.1 ∉ exchangeKeys)).map
      (fun a => Diag.unknownAttr e.name a.1))

/-- Modelled from the spec: the per-entry rules for one queue
declaration, checked against the exchanges in scope (`env`, name to
kind) — `bound_exchange` must resolve (`UnknownExchange` otherwise), and
`routing_key` is required exactly when the resolved exchange's kind
demands it; unknown attribute keys are rejected. An entry with no
`bound_exchange` uses the implicit default exchange. -/
def queueEntryDiags (env : List (String × ExchangeKind)) (e : Entry) :
    List Diag :=
  (match e.lookup "bound_exchange" with
    | none => []
    | some x =>
        match (env.find? (fun p => p.1 = x)).map (fun p => p.2) with
        | none => [Diag.unknownExchange e.name x]
        | some k =>
            if kindNeedsRoutingKey k then
              if (e.lookup "routing_key").isNone then
                [Diag.routingKeyRequired e.name]
              else []
            else
              if (e.lookup "routing_key").isSome then
                [Diag.routingKeyForbidden e.name]
              else [])
  ++ ((e.attrs.filter (fun a => a.1 ∉ queueKeys)).map
      (fun a => Diag.unknownAttr e.name a.1))

/-- Modelled from the spec: the semantic validator for an `exchanges!`
block accumulates every violation of every entry in one pass. -/
def validateExchanges (entries : List Entry) : List Diag :=
  duplicateDiags entries ++ (entries.map exchangeEntryDiags).flatten

/-- Modelled from the spec: the semantic validator for a `queues!` block
accumulates every violation of every entry in one pass. -/
def validateQueues (env : List (String × ExchangeKind))
    (entries : List Entry) : List Diag :=
  duplicateDiags entries ++ (entries.map (queueEntryDiags env)).flatten

/-- The generated, frozen record for one validated exchange (spec
section 3): post-default attributes, `durable` defaulting to true. -/
structure ExchangeDescriptor where
  name : String
  kind : ExchangeKind
  durable : Bool
deriving DecidableEq, Repr

/-- The generated, frozen record for one validated queue. -/
structure QueueDescriptor where
  name : String
  bound_exchange : Option String
  routing_key : Option String
  durable : Bool
deriving DecidableEq, Repr

/-- Default-filled descriptor of one exchange entry; only consumed once
the entry validated, so a missing or bad `kind` never reaches it. -/
def exchangeDescriptor (e : Entry) : ExchangeDescriptor :=
  { name := e.name
    kind := ((e.lookup "kind").bind parseKind).getD .direct
    durable := (e.lookup "durable").getD "true" = "true" }

/-- Default-filled descriptor of one queue entry. -/
def queueDescriptor (e : Entry) : QueueDescriptor :=
  { name := e.name
    bound_exchange := e.lookup "bound_exchange"
    routing_key := e.lookup "routing_key"
    durable := (e.lookup "durable").getD "true" = "true" }

/-- Modelled from the spec: the `exchanges` macro entry point
(`batch-rabbitmq-codegen/src/lib.rs` lines 16-19) — validate the block,
then generate descriptors only when the aggregate report is empty. -/
def compileExchanges (entries : List Entry) :
    Except (List Diag) (List ExchangeDescriptor) :=
  let ds := validateExchanges entries
  if ds.isEmpty then .ok (entries.map exchangeDescriptor) else .error ds

/-- Modelled from the spec: the `queues` macro entry point
(`batch-rabbitmq-codegen/src/lib.rs` lines 21-24). -/
def compileQueues (env : List (String × ExchangeKind))
    (entries : List Entry) :
    Except (List Diag) (List QueueDescriptor) :=
  let ds := validateQueues env entries
  if ds.isEmpty then .ok (entries.map queueDescriptor) else .error ds

/-- The descriptors a compilation result contributes to the program: a
failed block contributes none. -/
def exchangeDescriptorsOf :
    Except (List Diag) (List ExchangeDescriptor) → List ExchangeDescriptor
  | .ok m => m
  | .error _ => []

/-- The descriptors a failed or successful `queues!` block contributes. -/
def queueDescriptorsOf :
    Except (List Diag) (List QueueDescriptor) → List QueueDescriptor
  | .ok m => m
  | .error _ => []

/-- Any string other than the five accepted ones falls through every arm
of the `from_str` match and produces `InvalidPriority`. -/
lemma from_str_of_not_mem (s : String) (hs : s ∉ priorityStrings) :
    Priority.from_str s = .error .InvalidPriority := by
  simp only [priorityStrings, List.mem_cons, List.not_mem_nil, or_false,
    not_or] at hs
  obtain ⟨h1, h2, h3, h4, h5⟩ := hs
  simp [Priority.from_str, h1, h2, h3, h4, h5]

/-- A diagnostic raised by some entry of the list is in the validator's
aggregate report for an `exchanges!` block. -/
lemma mem_validateExchanges {entries : List Entry} {e : Entry} {d : Diag}
    (he : e ∈ entries) (hd : d ∈ exchangeEntryDiags e) :
    d ∈ validateExchanges entries := by
  unfold validateExchanges
  refine List.mem_append_right _ ?_
  exact List.mem_flatten.mpr
    ⟨exchangeEntryDiags e, List.mem_map_of_mem _ he, hd⟩

/-- The shape both validators share: the aggregate report is empty
exactly when there is no duplicate-name diagnostic and no entry raises a
per-entry diagnostic. -/
lemma dups_append_flatten_eq_nil {dups : List Diag} {entries : List Entry}
    {f : Entry → List Diag} :
    dups ++ (entries.map f).flatten = []
      ↔ dups = [] ∧ ∀ e ∈ entries, f e = [] := by
  simp [List.append_eq_nil, List.flatten_eq_nil_iff, List.mem_map]

/-- A diagnostic raised by some entry of the list is in the validator's
aggregate report for a `queues!` block. -/
lemma mem_validateQueues {env : List (String × ExchangeKind)}
    {entries : List Entry} {e : Entry} {d : Diag}
    (he : e ∈ entries) (hd : d ∈ queueEntryDiags env e) :
    d ∈ validateQueues env entries := by
  unfold validateQueues
  refine List.mem_append_right _ ?_
  exact List.mem_flatten.mpr
    ⟨queueEntryDiags env e, List.mem_map_of_mem _ he, hd⟩

/-- `compileExchanges` in propositional form: descriptors exactly when
the aggregate report is empty. -/
lemma compileExchanges_eq (entries : List Entry) :
    compileExchanges entries =
      if validateExchanges entries = [] then
        .ok (entries.map exchangeDescriptor)
      else .error (validateExchanges entries) := by
  simp only [compileExchanges, List.isEmpty_iff]

/-- `compileQueues` in propositional form. -/
lemma compileQueues_eq (env : List (String × ExchangeKind))
    (entries : List Entry) :
    compileQueues env entries =
      if validateQueues env entries = [] then
        .ok (entries.map queueDescriptor)
      else .error (validateQueues env entries) := by
  simp only [compileQueues, List.isEmpty_iff]

/-- C1: The `Priority` type is a totally ordered five-level enumeration
whose order is Trivial < Low < Normal < High < Critical: the derived
comparison is irreflexive-asymmetric, trichotomous and transitive, agrees
with the position of each variant in the declaration list, and orders
consecutive levels as declared — regardless of the `High` doc comment. -/
theorem priority_ordered_by_declaration_rank :
    (∀ p q : Priority, p.lt q = true → p ≠ q ∧ q.lt p = false)
    ∧ (∀ p q : Priority, p.lt q = true ∨ p = q ∨ q.lt p = true)
    ∧ (∀ p q r : Priority, p.lt q = true → q.lt r = true → p.lt r = true)
    ∧ (∀ p q : Priority,
        p.lt q = true ↔ declOrder.indexOf p < declOrder.indexOf q)
    ∧ (Priority.Trivial.lt .Low = true ∧ Priority.Low.lt .Normal = true
        ∧ Priority.Normal.lt .High = true
        ∧ Priority.High.lt .Critical = true) := by
  refine ⟨?_, ?_, ?_, ?_, ?_⟩ <;> decide

/-- C3: The `Status` and `Failure` vocabularies are closed and
exhaustive: every `Status` is `Pending`, `Started`, `Success` or
`Failed f` for some `Failure` reason `f`, and every `Failure` is
`Error`, `Timeout` or `Crash`. -/
theorem status_failure_closed_exhaustive :
    (∀ s : Status, s = .Pending ∨ s = .Started ∨ s = .Success
      ∨ ∃ f : Failure, s = .Failed f)
    ∧ (∀ f : Failure, f = .Error ∨ f = .Timeout ∨ f = .Crash) := by
  constructor
  · intro s
    cases s with
    | Pending => exact Or.inl rfl
    | Started => exact Or.inr (Or.inl rfl)
    | Success => exact Or.inr (Or.inr (Or.inl rfl))
    | Failed f => exact Or.inr (Or.inr (Or.inr ⟨f, rfl⟩))
  · intro f
    cases f with
    | Error => exact Or.inl rfl
    | Timeout => exact Or.inr (Or.inl rfl)
    | Crash => exact Or.inr (Or.inr rfl)

/-- C6: The six `Job` metadata queries are pure and independent of any
instance state: invoking any query of a given job type at two different
points of the program returns equal values, and in particular the
`(exchange, routing_key)` pair is stable across repeated queries. -/
theorem job_metadata_queries_pure :
    ∀ (J : JobClass) (q : JobQuery) (i j : Nat),
      invokeQuery J q i = invokeQuery J q j
      ∧ (invokeQuery J .exchange i, invokeQuery J .routing_key i)
        = (invokeQuery J .exchange j, invokeQuery J .routing_key j) := by
  intro J q i j
  cases q <;> exact ⟨rfl, rfl⟩

/-- C7: The default priority is `Normal`: `Priority`'s `Default` impl
returns `Priority::Normal`, and a job class built with no priority
specified gets `Normal`. -/
theorem default_priority_normal :
    Priority.default = Priority.Normal
    ∧ ∀ (n e r : String) (rt t : Option Nat),
        (mkJobClass n e r rt t none).priority = Priority.Normal :=
  ⟨rfl, fun _ _ _ _ _ => rfl⟩

/-- C8: A timeout failure is distinguishable from a handler-error
failure: `Failed Timeout ≠ Failed Error`, and `Failed f1 = Failed f2`
exactly when `f1 = f2`. -/
theorem failed_status_distinguishes_failure :
    Status.Failed .Timeout ≠ Status.Failed .Error
    ∧ ∀ f1 f2 : Failure, Status.Failed f1 = Status.Failed f2 ↔ f1 = f2 := by
  refine ⟨by decide, ?_⟩
  intro f1 f2
  constructor
  · intro h
    injection h
  · intro h
    rw [h]

/-- C9: `Priority::to_u8` maps Trivial, Low, Normal, High, Critical to
0, 1, 2, 3, 4, is a strictly monotone order-embedding (p < q in the
derived order exactly when `to_u8 p < to_u8 q`), is injective, and never
exceeds 4. -/
theorem to_u8_order_embedding :
    (Priority.Trivial.to_u8 = 0 ∧ Priority.Low.to_u8 = 1
      ∧ Priority.Normal.to_u8 = 2 ∧ Priority.High.to_u8 = 3
      ∧ Priority.Critical.to_u8 = 4)
    ∧ (∀ p q : Priority, p.lt q = true ↔ p.to_u8 < q.to_u8)
    ∧ (∀ p q : Priority, p.to_u8 = q.to_u8 → p = q)
    ∧ (∀ p : Priority, p.to_u8 ≤ 4) := by
  refine ⟨?_, ?_, ?_, ?_⟩ <;> decide

/-- C2: Parsing a priority from text succeeds exactly on the five exact
lowercase strings "trivial", "low", "normal", "high", "critical",
returning the correspondingly named level; every other string (any other
casing or extra characters included) fails with `InvalidPriority`. -/
theorem from_str_exact_lowercase_matches :
    (Priority.from_str "trivial" = .ok .Trivial
      ∧ Priority.from_str "low" = .ok .Low
      ∧ Priority.from_str "normal" = .ok .Normal
      ∧ Priority.from_str "high" = .ok .High
      ∧ Priority.from_str "critical" = .ok .Critical)
    ∧ (∀ s : String, s ∉ priorityStrings →
        Priority.from_str s = .error .InvalidPriority)
    ∧ (∀ s : String,
        (∃ p, Priority.from_str s = .ok p) ↔ s ∈ priorityStrings) := by
  refine ⟨⟨rfl, rfl, rfl, rfl, rfl⟩, from_str_of_not_mem, ?_⟩
  intro s
  constructor
  · rintro ⟨p, hp⟩
    by_contra hs
    rw [from_str_of_not_mem s hs] at hp
    exact Except.noConfusion hp
  · intro hs
    simp only [priorityStrings, List.mem_cons, List.not_mem_nil,
      or_false] at hs
    rcases hs with rfl | rfl | rfl | rfl | rfl
    · exact ⟨.Trivial, rfl⟩
    · exact ⟨.Low, rfl⟩
    · exact ⟨.Normal, rfl⟩
    · exact ⟨.High, rfl⟩
    · exact ⟨.Critical, rfl⟩

/-- C4: Topology generation is all-or-nothing: for either macro, if the
aggregate report of a block is non-empty then the block contributes zero
descriptors, and descriptors are produced only when the report is
empty. -/
theorem topology_all_or_nothing :
    ∀ (env : List (String × ExchangeKind)) (entries : List Entry),
      (validateExchanges entries ≠ [] →
        exchangeDescriptorsOf (compileExchanges entries) = [])
      ∧ (validateQueues env entries ≠ [] →
        queueDescriptorsOf (compileQueues env entries) = [])
      ∧ (∀ m, compileExchanges entries = .ok m →
          validateExchanges entries = [])
      ∧ (∀ m, compileQueues env entries = .ok m →
          validateQueues env entries = []) := by
  intro env entries
  rw [compileExchanges_eq, compileQueues_eq]
  refine ⟨?_, ?_, ?_, ?_⟩
  · intro h
    rw [if_neg h]
    rfl
  · intro h
    rw [if_neg h]
    rfl
  · intro m hm
    by_contra h
    rw [if_neg h] at hm
    exact Except.noConfusion hm
  · intro m hm
    by_contra h
    rw [if_neg h] at hm
    exact Except.noConfusion hm

/-- C5: The semantic validator does not stop at the first violation:
for either declaration kind, every per-entry diagnostic of every entry
(missing required attribute, unknown attribute, unresolved exchange
reference, conditional routing_key violation) and every duplicate-name
diagnostic is in the aggregate report, which is empty exactly when the
block has no violation at all — so a block with multiple violations
reports all of them at once, not just the first. -/
theorem validator_accumulates_all_violations :
    ∀ (env : List (String × ExchangeKind)) (entries : List Entry),
      (∀ e ∈ entries, ∀ d ∈ exchangeEntryDiags e,
        d ∈ validateExchanges entries)
      ∧ (∀ e ∈ entries, ∀ d ∈ queueEntryDiags env e,
        d ∈ validateQueues env entries)
      ∧ (∀ d ∈ duplicateDiags entries, d ∈ validateExchanges entries)
      ∧ (∀ d ∈ duplicateDiags entries, d ∈ validateQueues env entries)
      ∧ (validateExchanges entries = [] ↔
          duplicateDiags entries = [] ∧ ∀ e ∈ entries, exchangeEntryDiags e = [])
      ∧ (validateQueues env entries = [] ↔
          duplicateDiags entries = [] ∧ ∀ e ∈ entries, queueEntryDiags env e = []) := by
  intro env entries
  refine ⟨?_, ?_, ?_, ?_, ?_, ?_⟩
  · intro e he d hd
    exact mem_validateExchanges he hd
  · intro e he d hd
    exact mem_validateQueues he hd
  · intro d hd
    unfold validateExchanges
    exact List.mem_append_left _ hd
  · intro d hd
    unfold validateQueues
    exact List.mem_append_left _ hd
  · unfold validateExchanges
    exact dups_append_flatten_eq_nil
  · unfold validateQueues
    exact dups_append_flatten_eq_nil

end Batch
